import Mathlib

/-!
Verification of the `target-csv` Singer target (`target_csv.py`).

The source is shallowly embedded: JSON values become the inductive `JVal`;
Python dicts become association lists with Python's insertion-order update
semantics (`setA` / `dictOf`); the filesystem becomes an association list
from file names to the list of CSV rows stored in the file; and
`persist_messages` becomes a step function `processMessage` folded over the
message list by `runMessages`.  The external Draft-4 JSON-schema validator
(library `jsonschema`, not part of this repository) is a parameter
`validate : JVal → List (String × JVal) → Bool`.
-/

/-- A JSON value as manipulated by the Python code: null, booleans, numbers
(modelled as integers), strings, arrays and objects (ordered string-keyed
mappings, as Python dicts preserve insertion order). -/
inductive JVal where
  | null
  | bool (b : Bool)
  | num (n : Int)
  | str (s : String)
  | list (xs : List JVal)
  | obj (kvs : List (String × JVal))
deriving Repr

mutual

/-- Decidable equality for embedded JSON values. -/
def JVal.deq : (a b : JVal) → Decidable (a = b)
  | .null, .null => isTrue rfl
  | .bool a, .bool b =>
      match decEq a b with
      | isTrue h => isTrue (by rw [h])
      | isFalse h => isFalse (by intro hc; cases hc; exact h rfl)
  | .num a, .num b =>
      match decEq a b with
      | isTrue h => isTrue (by rw [h])
      | isFalse h => isFalse (by intro hc; cases hc; exact h rfl)
  | .str a, .str b =>
      match decEq a b with
      | isTrue h => isTrue (by rw [h])
      | isFalse h => isFalse (by intro hc; cases hc; exact h rfl)
  | .list a, .list b =>
      match JVal.deqList a b with
      | isTrue h => isTrue (by rw [h])
      | isFalse h => isFalse (by intro hc; cases hc; exact h rfl)
  | .obj a, .obj b =>
      match JVal.deqObj a b with
      | isTrue h => isTrue (by rw [h])
      | isFalse h => isFalse (by intro hc; cases hc; exact h rfl)
  | .null, .bool _ | .null, .num _ | .null, .str _ | .null, .list _ | .null, .obj _
  | .bool _, .null | .bool _, .num _ | .bool _, .str _ | .bool _, .list _ | .bool _, .obj _
  | .num _, .null | .num _, .bool _ | .num _, .str _ | .num _, .list _ | .num _, .obj _
  | .str _, .null | .str _, .bool _ | .str _, .num _ | .str _, .list _ | .str _, .obj _
  | .list _, .null | .list _, .bool _ | .list _, .num _ | .list _, .str _ | .list _, .obj _
  | .obj _, .null | .obj _, .bool _ | .obj _, .num _ | .obj _, .str _ | .obj _, .list _ =>
      isFalse (by intro hc; cases hc)

/-- Decidable equality for lists of embedded JSON values. -/
def JVal.deqList : (a b : List JVal) → Decidable (a = b)
  | [], [] => isTrue rfl
  | [], _ :: _ => isFalse (by intro hc; cases hc)
  | _ :: _, [] => isFalse (by intro hc; cases hc)
  | x :: xs, y :: ys =>
      match JVal.deq x y with
      | isTrue h1 =>
          match JVal.deqList xs ys with
          | isTrue h2 => isTrue (by rw [h1, h2])
          | isFalse h2 => isFalse (by intro hc; cases hc; exact h2 rfl)
      | isFalse h1 => isFalse (by intro hc; cases hc; exact h1 rfl)

/-- Decidable equality for association lists of embedded JSON values. -/
def JVal.deqObj : (a b : List (String × JVal)) → Decidable (a = b)
  | [], [] => isTrue rfl
  | [], _ :: _ => isFalse (by intro hc; cases hc)
  | _ :: _, [] => isFalse (by intro hc; cases hc)
  | (k, x) :: xs, (k2, y) :: ys =>
      match decEq k k2 with
      | isTrue hk =>
          match JVal.deq x y with
          | isTrue h1 =>
              match JVal.deqObj xs ys with
              | isTrue h2 => isTrue (by rw [hk, h1, h2])
              | isFalse h2 => isFalse (by intro hc; cases hc; exact h2 rfl)
          | isFalse h1 => isFalse (by intro hc; cases hc; exact h1 rfl)
      | isFalse hk => isFalse (by intro hc; cases hc; exact hk rfl)

end

instance : DecidableEq JVal := JVal.deq

mutual

/-- Python `repr` of a JSON-shaped value (used by `str` on containers). -/
def pyRepr : JVal → String
  | .null => "None"
  | .bool true => "True"
  | .bool false => "False"
  | .num n => toString n
  | .str s => "'" ++ s ++ "'"
  | .list xs => "[" ++ pyReprList xs ++ "]"
  | .obj kvs => "\x7b" ++ pyReprObj kvs ++ "\x7d"

/-- Comma-separated `repr`s of the elements of a Python list. -/
def pyReprList : List JVal → String
  | [] => ""
  | [x] => pyRepr x
  | x :: y :: rest => pyRepr x ++ ", " ++ pyReprList (y :: rest)

/-- Comma-separated `'key': repr(value)` pairs of a Python dict. -/
def pyReprObj : List (String × JVal) → String
  | [] => ""
  | [kv] => "'" ++ kv.1 ++ "': " ++ pyRepr kv.2
  | kv :: kw :: rest => "'" ++ kv.1 ++ "': " ++ pyRepr kv.2 ++ ", " ++ pyReprObj (kw :: rest)

end

/-- Python `str` of a JSON-shaped value: a string prints as itself, any other
value prints as its `repr`. -/
def pyStr : JVal → String
  | .str s => s
  | v => pyRepr v

/-- Association-list lookup, modelling Python `d[k]` / `d.get(k)` /
`k in d`. -/
def lookupA {α : Type} : List (String × α) → String → Option α
  | [], _ => none
  | (k, v) :: rest, key => if k = key then some v else lookupA rest key

/-- Association-list update, modelling Python `d[k] = v`: an existing key
keeps its position and gets the new value, a new key is appended. -/
def setA {α : Type} : List (String × α) → String → α → List (String × α)
  | [], key, v => [(key, v)]
  | (k, w) :: rest, key, v =>
      if k = key then (k, v) :: rest else (k, w) :: setA rest key v

/-- Python `dict(items)`: fold the pairs into an (initially empty) dict with
insertion-order update semantics. -/
def dictOf (items : List (String × JVal)) : List (String × JVal) :=
  items.foldl (fun d kv => setA d kv.1 kv.2) []

/-- `flatten`'s loop body from `target_csv.py`: collect the items list before
the final `dict(...)` call.  A nested mapping is recursively flattened (the
recursive call goes through `dict(...)` again, hence the inner `dictOf`), a
list value is stringified with `str`, any other value passes through. -/
def flattenItems : List (String × JVal) → String → String → List (String × JVal)
  | [], _, _ => []
  | (k, v) :: rest, parent_key, sep =>
      let new_key := if parent_key = "" then k else parent_key ++ sep ++ k
      (match v with
       | JVal.obj kvs => dictOf (flattenItems kvs new_key sep)
       | JVal.list xs => [(new_key, JVal.str (pyStr (JVal.list xs)))]
       | w => [(new_key, w)]) ++ flattenItems rest parent_key sep

/-- `flatten(d, parent_key, sep)` from `target_csv.py`. -/
def flatten (d : List (String × JVal)) (parent_key sep : String) :
    List (String × JVal) :=
  dictOf (flattenItems d parent_key sep)

/-- The record type as consumed by `persist_messages` (`o["record"]`): an
ordered string-keyed mapping of JSON values. -/
abbrev JRecord := List (String × JVal)

/-- A Singer protocol message, after `singer.parse_message(...).asdict()`:
the three handled types plus the catch-all branch that only logs a warning. -/
inductive Message where
  | record (stream : String) (rec : JRecord)
  | state (value : JVal)
  | schema (stream : String) (sch : JVal) (keyProps : List String)
  | unknown
deriving Repr, DecidableEq

/-- A stored CSV file, as the list of rows it holds; each row is the list of
its textual fields (the `csv` module's writer and reader are inverse on rows,
so files are modelled at the row level). -/
abbrev CSVRows := List (List String)

/-- The filesystem visible to `persist_messages`: file name to stored rows. -/
abbrev FileSys := List (String × CSVRows)

/-- The mutable state of `persist_messages`: the checkpoint `state`, the four
per-stream dicts (`validators` is derived from `schemas` through the
validation oracle, so it is not duplicated here), and the filesystem. -/
structure PState where
  state : Option JVal
  schemas : List (String × JVal)
  key_properties : List (String × List String)
  headers : List (String × List String)
  fs : FileSys
deriving Repr, DecidableEq

/-- The two exceptions `persist_messages` raises while handling a RECORD:
the explicit missing-schema `Exception` and the validator's
`ValidationError`. -/
inductive Err where
  | missingSchema (stream : String)
  | validationError (stream : String)
deriving Repr, DecidableEq

/-- The validation oracle standing for `Draft4Validator(schema).validate`:
`true` means the record conforms to the schema document. -/
abbrev Validate := JVal → JRecord → Bool

/-- `os.path.join(output_folder, stream + f"--{date}.csv")`. -/
def filePath (output_folder date stream : String) : String :=
  output_folder ++ "/" ++ stream ++ "--" ++ date ++ ".csv"

/-- `(not os.path.isfile(filename)) or os.stat(filename).st_size == 0`. -/
def fileEmpty (fs : FileSys) (filename : String) : Bool :=
  match lookupA fs filename with
  | none => true
  | some rows => rows.isEmpty

/-- One output cell as the `csv` writer renders a dict value: `None`
(including the `restval=None` used for a column missing from the record)
becomes the empty field, everything else is written with `str`. -/
def cellStr : JVal → String
  | JVal.null => ""
  | v => pyStr v

/-- `csv.DictWriter.writerow` with `extrasaction="ignore"`: one field per
header column in order, the record's value if the key is present, else the
default; keys outside the header are silently dropped. -/
def rowFor (header : List String) (flat : JRecord) : List String :=
  header.map (fun c =>
    match lookupA flat c with
    | some v => cellStr v
    | none => "")

/-- The header-dict update performed on each RECORD: read the existing
file's first line when the stream has no cached header and the file is
non-empty (falling back to the flattened keys when that line is empty),
otherwise store the current flattened record's keys. -/
def updateHeaders (headers : List (String × List String)) (fs : FileSys)
    (stream filename : String) (flat : JRecord) : List (String × List String) :=
  if (lookupA headers stream).isNone && !(fileEmpty fs filename) then
    let first_line := ((lookupA fs filename).getD []).headD []
    setA headers stream (if first_line.isEmpty then flat.map Prod.fst else first_line)
  else
    setA headers stream (flat.map Prod.fst)

/-- One iteration of the message loop of `persist_messages`.  An error
carries the state at the moment the exception is raised, so that the
filesystem at abort is observable. -/
def processMessage (validate : Validate) (output_folder date : String)
    (st : PState) : Message → Except (Err × PState) PState
  | .record stream rec =>
      match lookupA st.schemas stream with
      | none => .error (.missingSchema stream, st)
      | some sch =>
          if validate sch rec then
            let filename := filePath output_folder date stream
            let file_is_empty := fileEmpty st.fs filename
            let flattened_record := flatten rec "" "__"
            let headers := updateHeaders st.headers st.fs stream filename flattened_record
            let used_header := (lookupA headers stream).getD []
            let old_rows := (lookupA st.fs filename).getD []
            let new_rows :=
              old_rows ++ (if file_is_empty then [used_header] else []) ++
                [rowFor used_header flattened_record]
            .ok { st with
                    headers := headers,
                    fs := setA st.fs filename new_rows,
                    state := none }
          else .error (.validationError stream, st)
  | .state v => .ok { st with state := some v }
  | .schema stream sch keyProps =>
      .ok { st with
              schemas := setA st.schemas stream sch,
              key_properties := setA st.key_properties stream keyProps }
  | .unknown => .ok st

/-- The message loop of `persist_messages`, from an arbitrary state. -/
def runMessages (validate : Validate) (output_folder date : String) :
    PState → List Message → Except (Err × PState) PState
  | st, [] => .ok st
  | st, m :: rest =>
      match processMessage validate output_folder date st m with
      | .ok st2 => runMessages validate output_folder date st2 rest
      | .error e => .error e

/-- The state `persist_messages` starts from, over a given filesystem. -/
def initState (fs0 : FileSys) : PState :=
  { state := none, schemas := [], key_properties := [], headers := [], fs := fs0 }

/-- `persist_messages(messages, output_folder)` on a given starting
filesystem; on success the checkpoint it returns is the `state` field of the
final `PState`. -/
def persistMessages (validate : Validate) (output_folder date : String)
    (msgs : List Message) (fs0 : FileSys) : Except (Err × PState) PState :=
  runMessages validate output_folder date (initState fs0) msgs

/-- A validation oracle that accepts everything. -/
def trueValidate : Validate := fun _ _ => true

example : flatten [("a", JVal.obj [("b", JVal.num 1), ("c", JVal.num 2)])] "" "__" =
    [("a__b", JVal.num 1), ("a__c", JVal.num 2)] := by
  simp [flatten, flattenItems, dictOf, setA, lookupA]

/-! ### Association-list and loop lemmas -/

lemma lookupA_setA_self {α : Type} (l : List (String × α)) (k : String) (v : α) :
    lookupA (setA l k v) k = some v := by
  induction l with
  | nil => simp [setA, lookupA]
  | cons kv rest ih =>
      obtain ⟨k2, w⟩ := kv
      by_cases h : k2 = k
      · simp [setA, lookupA, h]
      · simp [setA, lookupA, h, ih]

lemma lookupA_setA_ne {α : Type} (l : List (String × α)) (k k2 : String) (v : α)
    (h : k2 ≠ k) : lookupA (setA l k v) k2 = lookupA l k2 := by
  have hk : ¬ k = k2 := fun hc => h hc.symm
  induction l with
  | nil => simp [setA, lookupA, hk]
  | cons kv rest ih =>
      obtain ⟨k3, w⟩ := kv
      by_cases h3 : k3 = k
      · subst h3
        simp [setA, lookupA, hk]
      · by_cases h4 : k3 = k2
        · simp [setA, lookupA, h3, h4, h]
        · simp [setA, lookupA, h3, h4, ih]

lemma setA_of_not_mem {α : Type} (l : List (String × α)) (k : String) (v : α)
    (h : k ∉ l.map Prod.fst) : setA l k v = l ++ [(k, v)] := by
  induction l with
  | nil => simp [setA]
  | cons kv rest ih =>
      obtain ⟨k2, w⟩ := kv
      have h1 : ¬ k2 = k := by
        intro hc
        exact h (by simp [hc])
      have h2 : k ∉ rest.map Prod.fst := by
        intro hc
        exact h (by simp [hc])
      simp [setA, h1, ih h2]

lemma runMessages_append (validate : Validate) (output_folder date : String)
    (st : PState) (xs ys : List Message) :
    runMessages validate output_folder date st (xs ++ ys) =
      match runMessages validate output_folder date st xs with
      | .ok st2 => runMessages validate output_folder date st2 ys
      | .error e => .error e := by
  induction xs generalizing st with
  | nil => simp [runMessages]
  | cons m rest ih =>
      simp only [List.cons_append, runMessages]
      cases processMessage validate output_folder date st m with
      | ok st2 => exact ih st2
      | error e => rfl

lemma filePath_inj (output_folder date s t : String)
    (h : filePath output_folder date s = filePath output_folder date t) : s = t := by
  have hd : (filePath output_folder date s).data = (filePath output_folder date t).data := by
    rw [h]
  simp [filePath, String.data_append] at hd
  exact String.ext hd

lemma fileEmpty_iff (fs : FileSys) (filename : String) :
    fileEmpty fs filename = ((lookupA fs filename).getD []).isEmpty := by
  cases h : lookupA fs filename <;> simp [fileEmpty, h]

/-! ### Checkpoint bookkeeping (claim C2) -/

/-- The checkpoint a message sequence leaves standing: the value of the last
STATE message not followed by any RECORD message. -/
def checkpointOf (msgs : List Message) : Option JVal :=
  msgs.foldl
    (fun acc m =>
      match m with
      | .state v => some v
      | .record _ _ => none
      | _ => acc)
    none

lemma processMessage_record_state (validate : Validate) (output_folder date : String)
    (st st2 : PState) (stream : String) (rec : JRecord)
    (h : processMessage validate output_folder date st (.record stream rec) = .ok st2) :
    st2.state = none := by
  simp only [processMessage] at h
  cases hl : lookupA st.schemas stream with
  | none => rw [hl] at h; cases h
  | some sch =>
      rw [hl] at h
      by_cases hv : validate sch rec
      · simp [hv] at h
        rw [← h]
      · simp [hv] at h

lemma runMessages_state_eq (validate : Validate) (output_folder date : String)
    (msgs : List Message) :
    ∀ (st st2 : PState),
      runMessages validate output_folder date st msgs = .ok st2 →
      st2.state = msgs.foldl
        (fun acc m =>
          match m with
          | .state v => some v
          | .record _ _ => none
          | _ => acc)
        st.state := by
  induction msgs with
  | nil =>
      intro st st2 h
      simp [runMessages] at h
      rw [← h]
      rfl
  | cons m rest ih =>
      intro st st2 h
      simp only [runMessages] at h
      cases hp : processMessage validate output_folder date st m with
      | error e => rw [hp] at h; cases h
      | ok st3 =>
          rw [hp] at h
          have hrest := ih st3 st2 h
          rw [hrest]
          simp only [List.foldl_cons]
          cases m with
          | record stream rec =>
              rw [processMessage_record_state validate output_folder date st st3 stream rec hp]
          | state v =>
              simp only [processMessage] at hp
              cases hp
              rfl
          | schema stream sch kp =>
              simp only [processMessage] at hp
              cases hp
              rfl
          | unknown =>
              simp only [processMessage] at hp
              cases hp
              rfl

/-- A validation oracle that rejects everything. -/
def falseValidate : Validate := fun _ _ => false

/-- C2.  Checkpoint semantics: whenever `persist_messages` finishes
normally, the checkpoint it returns is the value of the last STATE message
not followed by any RECORD message (`checkpointOf`): the checkpoint is set
on each STATE, reset to none right after each RECORD is written, and
returned at end of input. -/
theorem checkpoint_semantics (validate : Validate) (output_folder date : String)
    (msgs : List Message) (fs0 : FileSys) (st : PState)
    (h : persistMessages validate output_folder date msgs fs0 = .ok st) :
    st.state = checkpointOf msgs := by
  have := runMessages_state_eq validate output_folder date msgs (initState fs0) st h
  rw [this]
  rfl

/-- Witness for C2: the run SCHEMA(s), STATE(1), RECORD(r), STATE(2)
finishes in a state whose checkpoint equals `checkpointOf` of the
sequence, namely `some 2`. -/
theorem checkpoint_semantics_witness :
    ({ state := some (JVal.num 2),
       schemas := [("s", JVal.null)],
       key_properties := [("s", [])],
       headers := [("s", ["a"])],
       fs := [("o/s--d.csv", [["a"], ["x"]])] } : PState).state =
      checkpointOf
        [Message.schema "s" JVal.null [],
         Message.state (JVal.num 1),
         Message.record "s" [("a", JVal.str "x")],
         Message.state (JVal.num 2)] :=
  checkpoint_semantics trueValidate "o" "d"
    [Message.schema "s" JVal.null [],
     Message.state (JVal.num 1),
     Message.record "s" [("a", JVal.str "x")],
     Message.state (JVal.num 2)] []
    { state := some (JVal.num 2),
      schemas := [("s", JVal.null)],
      key_properties := [("s", [])],
      headers := [("s", ["a"])],
      fs := [("o/s--d.csv", [["a"], ["x"]])] }
    (by simp [persistMessages, runMessages, processMessage, trueValidate, initState,
      filePath, fileEmpty, updateHeaders, rowFor, cellStr, pyStr, pyRepr,
      flatten, flattenItems, dictOf, setA, lookupA])

/-- C3.  Missing-schema rejection: a RECORD for a stream with no schema
declared so far aborts the run with the missing-schema exception, raised
before any file operation — the state carried by the error (in particular
its filesystem) is exactly the state from before the offending RECORD, so
no file was created for that stream by that RECORD. -/
theorem missing_schema_rejection (validate : Validate) (output_folder date : String)
    (pre post : List Message) (stream : String) (rec : JRecord)
    (fs0 : FileSys) (st : PState)
    (hpre : runMessages validate output_folder date (initState fs0) pre = .ok st)
    (hns : lookupA st.schemas stream = none) :
    persistMessages validate output_folder date
        (pre ++ Message.record stream rec :: post) fs0 =
      .error (.missingSchema stream, st) := by
  unfold persistMessages
  rw [runMessages_append, hpre]
  simp only [runMessages, processMessage]
  rw [hns]

/-- Witness for C3: the one-message run RECORD("s", r) with no SCHEMA
aborts with the missing-schema error, leaving the initial (empty)
filesystem untouched. -/
theorem missing_schema_rejection_witness :
    persistMessages trueValidate "o" "d"
        ([] ++ Message.record "s" [("a", JVal.str "x")] :: []) [] =
      .error (.missingSchema "s", initState []) :=
  missing_schema_rejection trueValidate "o" "d" [] [] "s" [("a", JVal.str "x")] []
    (initState []) (by simp [runMessages]) (by simp [initState, lookupA])

/-- C4.  Validation rejection with atomicity: a RECORD whose record the
validator rejects aborts the run with the validation error, raised before
the output file is opened or modified — the state carried by the error (in
particular its filesystem) is exactly the state from before the offending
RECORD. -/
theorem validation_rejection_atomic (validate : Validate) (output_folder date : String)
    (pre post : List Message) (stream : String) (rec : JRecord) (sch : JVal)
    (fs0 : FileSys) (st : PState)
    (hpre : runMessages validate output_folder date (initState fs0) pre = .ok st)
    (hsch : lookupA st.schemas stream = some sch)
    (hval : validate sch rec = false) :
    persistMessages validate output_folder date
        (pre ++ Message.record stream rec :: post) fs0 =
      .error (.validationError stream, st) := by
  unfold persistMessages
  rw [runMessages_append, hpre]
  simp only [runMessages, processMessage]
  rw [hsch]
  simp [hval]

/-- Witness for C4: under the all-rejecting validator, SCHEMA("s", …)
followed by RECORD("s", r) aborts with the validation error; the carried
state still has an empty filesystem. -/
theorem validation_rejection_atomic_witness :
    persistMessages falseValidate "o" "d"
        ([Message.schema "s" JVal.null []] ++
          Message.record "s" [("a", JVal.str "x")] :: []) [] =
      .error (.validationError "s",
        { state := none, schemas := [("s", JVal.null)],
          key_properties := [("s", [])], headers := [], fs := [] }) :=
  validation_rejection_atomic falseValidate "o" "d"
    [Message.schema "s" JVal.null []] [] "s" [("a", JVal.str "x")] JVal.null []
    { state := none, schemas := [("s", JVal.null)],
      key_properties := [("s", [])], headers := [], fs := [] }
    (by simp [runMessages, processMessage, initState, setA])
    (by simp [lookupA])
    rfl

/-! ### The header actually used by a RECORD append -/

/-- The column list the RECORD branch stores for the stream: the existing
file's first line when no header is cached and the file is non-empty
(falling back to the flattened keys when that first line is empty), and the
current record's flattened keys otherwise. -/
def headerChoice (headers : List (String × List String)) (fs : FileSys)
    (stream filename : String) (flat : JRecord) : List String :=
  if (lookupA headers stream).isNone && !(fileEmpty fs filename) then
    let first_line := ((lookupA fs filename).getD []).headD []
    if first_line.isEmpty then flat.map Prod.fst else first_line
  else flat.map Prod.fst

lemma updateHeaders_eq (headers : List (String × List String)) (fs : FileSys)
    (stream filename : String) (flat : JRecord) :
    updateHeaders headers fs stream filename flat =
      setA headers stream (headerChoice headers fs stream filename flat) := by
  unfold updateHeaders headerChoice
  by_cases h : (lookupA headers stream).isNone && !(fileEmpty fs filename) <;> simp [h]

lemma lookupA_updateHeaders_self (headers : List (String × List String)) (fs : FileSys)
    (stream filename : String) (flat : JRecord) :
    lookupA (updateHeaders headers fs stream filename flat) stream =
      some (headerChoice headers fs stream filename flat) := by
  rw [updateHeaders_eq]
  exact lookupA_setA_self headers stream _

/-- C6.  Append-row semantics: a RECORD that passes the schema check and
validation succeeds, and the target file afterwards holds its previous rows,
then (if and only if the file was empty beforehand) the header row, then one
data row built by `rowFor`: for each column of the used header in order the
flattened record's value rendered as a cell if the key is present and the
empty string otherwise, every flattened key outside the header being
silently dropped. -/
theorem append_row_semantics (validate : Validate) (output_folder date : String)
    (st : PState) (stream : String) (rec : JRecord) (sch : JVal)
    (hsch : lookupA st.schemas stream = some sch)
    (hval : validate sch rec = true) :
    ∃ st2 used_header,
      processMessage validate output_folder date st (.record stream rec) = .ok st2 ∧
      lookupA st2.headers stream = some used_header ∧
      lookupA st2.fs (filePath output_folder date stream) =
        some ((lookupA st.fs (filePath output_folder date stream)).getD [] ++
          (if fileEmpty st.fs (filePath output_folder date stream)
            then [used_header] else []) ++
          [rowFor used_header (flatten rec "" "__")]) := by
  simp only [processMessage, hsch, hval, if_true]
  refine ⟨_, (lookupA (updateHeaders st.headers st.fs stream
      (filePath output_folder date stream) (flatten rec "" "__")) stream).getD [],
    rfl, ?_, ?_⟩
  · rw [lookupA_updateHeaders_self]
    simp [lookupA_updateHeaders_self]
  · rw [lookupA_setA_self]

/-- A concrete state with the schema for stream "s" declared and nothing
written yet, used to instantiate the step-level theorems. -/
def freshDeclaredState : PState :=
  { state := none, schemas := [("s", JVal.null)],
    key_properties := [("s", [])], headers := [], fs := [] }

/-- Witness for C6: appending RECORD({"a": "x"}) for a fresh stream writes
the header row ["a"] and then the data row ["x"]. -/
theorem append_row_semantics_witness :
    ∃ st2 used_header,
      processMessage trueValidate "o" "d" freshDeclaredState
          (.record "s" [("a", JVal.str "x")]) = .ok st2 ∧
      lookupA st2.headers "s" = some used_header ∧
      lookupA st2.fs (filePath "o" "d" "s") =
        some ((lookupA freshDeclaredState.fs (filePath "o" "d" "s")).getD [] ++
          (if fileEmpty freshDeclaredState.fs (filePath "o" "d" "s")
            then [used_header] else []) ++
          [rowFor used_header (flatten [("a", JVal.str "x")] "" "__")]) :=
  append_row_semantics trueValidate "o" "d" freshDeclaredState
    "s" [("a", JVal.str "x")] JVal.null (by simp [freshDeclaredState, lookupA]) rfl

/-- C7.  Re-run continuation: when the first RECORD for a stream (no cached
header) targets an existing non-empty file, the header cached and used for
that RECORD is the file's first line — the current record's flattened keys
are used only when that first line is empty — and the data row is appended
under that header without rewriting a header row. -/
theorem rerun_header_from_file (validate : Validate) (output_folder date : String)
    (st : PState) (stream : String) (rec : JRecord) (sch : JVal)
    (first_line : List String) (rest_rows : CSVRows)
    (hsch : lookupA st.schemas stream = some sch)
    (hval : validate sch rec = true)
    (hnohdr : lookupA st.headers stream = none)
    (hfile : lookupA st.fs (filePath output_folder date stream) =
      some (first_line :: rest_rows)) :
    ∃ st2,
      processMessage validate output_folder date st (.record stream rec) = .ok st2 ∧
      lookupA st2.headers stream =
        some (if first_line = [] then (flatten rec "" "__").map Prod.fst
          else first_line) ∧
      lookupA st2.fs (filePath output_folder date stream) =
        some ((first_line :: rest_rows) ++
          [rowFor
            (if first_line = [] then (flatten rec "" "__").map Prod.fst
              else first_line)
            (flatten rec "" "__")]) := by
  have hemp : fileEmpty st.fs (filePath output_folder date stream) = false := by
    simp [fileEmpty, hfile]
  have hchoice :
      headerChoice st.headers st.fs stream (filePath output_folder date stream)
        (flatten rec "" "__") =
      (if first_line = [] then (flatten rec "" "__").map Prod.fst else first_line) := by
    simp [headerChoice, hnohdr, hemp, hfile, List.isEmpty_iff]
  simp only [processMessage, hsch, hval, if_true]
  refine ⟨_, rfl, ?_, ?_⟩
  · rw [lookupA_updateHeaders_self, hchoice]
  · rw [lookupA_setA_self, lookupA_updateHeaders_self, hchoice, hemp, hfile]
    simp

/-- Witness for C7: with a pre-existing file holding header ["a"] and one
row, the first RECORD of a new run — whose record has the different key set
["b"] — is appended under the file's header ["a"], as the empty-cell row
[""]. -/
theorem rerun_header_from_file_witness :
    ∃ st2,
      processMessage trueValidate "o" "d"
          { state := none, schemas := [("s", JVal.null)],
            key_properties := [("s", [])], headers := [],
            fs := [("o/s--d.csv", [["a"], ["x"]])] }
          (.record "s" [("b", JVal.str "y")]) = .ok st2 ∧
      lookupA st2.headers "s" =
        some (if (["a"] : List String) = []
          then (flatten [("b", JVal.str "y")] "" "__").map Prod.fst else ["a"]) ∧
      lookupA st2.fs (filePath "o" "d" "s") =
        some ((["a"] :: [["x"]]) ++
          [rowFor
            (if (["a"] : List String) = []
              then (flatten [("b", JVal.str "y")] "" "__").map Prod.fst else ["a"])
            (flatten [("b", JVal.str "y")] "" "__")]) :=
  rerun_header_from_file trueValidate "o" "d"
    { state := none, schemas := [("s", JVal.null)],
      key_properties := [("s", [])], headers := [],
      fs := [("o/s--d.csv", [["a"], ["x"]])] }
    "s" [("b", JVal.str "y")] JVal.null ["a"] [["x"]]
    (by simp [lookupA]) rfl (by simp [lookupA])
    (by simp [lookupA, filePath])

/-- C9.  SCHEMA frame property: processing a SCHEMA message succeeds,
overwrites only the named stream's stored schema and key_properties (the
validator being derived from the stored schema), leaves the header table,
the checkpoint and the filesystem untouched, and leaves every other
stream's schema and key_properties unchanged. -/
theorem schema_frame (validate : Validate) (output_folder date : String)
    (st : PState) (stream : String) (sch : JVal) (kp : List String) :
    ∃ st2,
      processMessage validate output_folder date st (.schema stream sch kp) = .ok st2 ∧
      st2.headers = st.headers ∧
      st2.state = st.state ∧
      st2.fs = st.fs ∧
      lookupA st2.schemas stream = some sch ∧
      lookupA st2.key_properties stream = some kp ∧
      (∀ t, ¬ t = stream →
        lookupA st2.schemas t = lookupA st.schemas t ∧
        lookupA st2.key_properties t = lookupA st.key_properties t) :=
  ⟨_, rfl, rfl, rfl, rfl,
    lookupA_setA_self st.schemas stream sch,
    lookupA_setA_self st.key_properties stream kp,
    fun t ht =>
      ⟨lookupA_setA_ne st.schemas stream t sch ht,
       lookupA_setA_ne st.key_properties stream t kp ht⟩⟩

/-- Witness for C9: a SCHEMA for stream "s" in a state that also tracks a
stream "t"; the frame conditions are obtained at the concrete other stream
"t". -/
theorem schema_frame_witness :
    ∃ st2,
      processMessage trueValidate "o" "d"
          { state := some (JVal.num 1),
            schemas := [("t", JVal.bool true)],
            key_properties := [("t", ["id"])],
            headers := [("t", ["a"])],
            fs := [("o/t--d.csv", [["a"], ["x"]])] }
          (.schema "s" (JVal.num 7) ["k"]) = .ok st2 ∧
      st2.headers = [("t", ["a"])] ∧
      st2.state = some (JVal.num 1) ∧
      st2.fs = [("o/t--d.csv", [["a"], ["x"]])] ∧
      lookupA st2.schemas "s" = some (JVal.num 7) ∧
      lookupA st2.key_properties "s" = some ["k"] ∧
      lookupA st2.schemas "t" = some (JVal.bool true) ∧
      lookupA st2.key_properties "t" = some ["id"] := by
  obtain ⟨st2, hrun, hhdr, hstate, hfs, hsch, hkp, hframe⟩ :=
    schema_frame trueValidate "o" "d"
      { state := some (JVal.num 1),
        schemas := [("t", JVal.bool true)],
        key_properties := [("t", ["id"])],
        headers := [("t", ["a"])],
        fs := [("o/t--d.csv", [["a"], ["x"]])] }
      "s" (JVal.num 7) ["k"]
  obtain ⟨hft, hfkp⟩ := hframe "t" (by decide)
  exact ⟨st2, hrun, hhdr, hstate, hfs, hsch, hkp,
    by rw [hft]; simp [lookupA], by rw [hfkp]; simp [lookupA]⟩

/-! ### Flattener reference properties (claim C8) -/

/-- The value transformation the flattener applies to a non-mapping value:
a Python list becomes its `str` form, everything else passes through. -/
def stringifyLists : JVal → JVal
  | JVal.list xs => JVal.str (pyStr (JVal.list xs))
  | v => v

/-- `true` when a value is not a nested mapping. -/
def notMapping : JVal → Bool
  | JVal.obj _ => false
  | _ => true

lemma flattenItems_flat (d : JRecord)
    (hflat : ∀ kv ∈ d, notMapping kv.2 = true) :
    flattenItems d "" "__" = d.map (fun kv => (kv.1, stringifyLists kv.2)) := by
  induction d with
  | nil => simp [flattenItems]
  | cons kv rest ih =>
      obtain ⟨k, v⟩ := kv
      have hv : notMapping v = true := hflat (k, v) (by simp)
      have hrest : ∀ kv2 ∈ rest, notMapping kv2.2 = true := fun kv2 hm =>
        hflat kv2 (by simp [hm])
      cases v with
      | obj kvs => simp [notMapping] at hv
      | null => simp [flattenItems, stringifyLists, ih hrest]
      | bool b => simp [flattenItems, stringifyLists, ih hrest]
      | num n => simp [flattenItems, stringifyLists, ih hrest]
      | str s => simp [flattenItems, stringifyLists, ih hrest]
      | list xs => simp [flattenItems, stringifyLists, ih hrest]

lemma foldl_setA_nodup (l : List (String × JVal)) :
    ∀ acc : List (String × JVal),
      ((acc ++ l).map Prod.fst).Nodup →
      l.foldl (fun dd kv => setA dd kv.1 kv.2) acc = acc ++ l := by
  induction l with
  | nil => intro acc _; simp
  | cons kv rest ih =>
      intro acc h
      obtain ⟨k, v⟩ := kv
      have hmap : (acc.map Prod.fst ++ (k :: rest.map Prod.fst)).Nodup := by
        simpa using h
      rw [List.nodup_append] at hmap
      have hk : k ∉ acc.map Prod.fst := fun hm => hmap.2.2 hm (by simp)
      rw [List.foldl_cons]
      simp only
      rw [setA_of_not_mem acc k v hk]
      have h2 : (((acc ++ [(k, v)]) ++ rest).map Prod.fst).Nodup := by
        have heq : (acc ++ [(k, v)]) ++ rest = acc ++ (k, v) :: rest := by simp
        rw [heq]
        exact h
      rw [ih (acc ++ [(k, v)]) h2]
      simp

lemma dictOf_of_nodup (l : List (String × JVal))
    (h : (l.map Prod.fst).Nodup) : dictOf l = l := by
  have := foldl_setA_nodup l [] (by simpa using h)
  simpa [dictOf] using this

/-- C8.  Flattener reference definition: on a mapping with no nested
mappings `flatten` returns the same mapping up to stringifying list values
(key order preserved, non-list values untouched); and on the nested example
it joins the nesting path with the two-character separator "__":
flatten({"a": {"b": 1, "c": 2}}) = {"a__b": 1, "a__c": 2}.  Being a
function of the ordered input, its output order is determined by the
input's iteration order. -/
theorem flatten_reference (d : JRecord)
    (hflat : ∀ kv ∈ d, notMapping kv.2 = true)
    (hnodup : (d.map Prod.fst).Nodup) :
    flatten d "" "__" = d.map (fun kv => (kv.1, stringifyLists kv.2)) ∧
    flatten [("a", JVal.obj [("b", JVal.num 1), ("c", JVal.num 2)])] "" "__" =
      [("a__b", JVal.num 1), ("a__c", JVal.num 2)] := by
  constructor
  · rw [flatten, flattenItems_flat d hflat]
    apply dictOf_of_nodup
    simpa using hnodup
  · simp [flatten, flattenItems, dictOf, setA, lookupA]

/-- Witness for C8: a flat mapping with a number and a list value, whose
keys are distinct; the conjunction is obtained at that concrete input. -/
theorem flatten_reference_witness :
    flatten [("x", JVal.num 3), ("l", JVal.list [JVal.num 1])] "" "__" =
      [("x", JVal.num 3), ("l", JVal.list [JVal.num 1])].map
        (fun kv => (kv.1, stringifyLists kv.2)) ∧
    flatten [("a", JVal.obj [("b", JVal.num 1), ("c", JVal.num 2)])] "" "__" =
      [("a__b", JVal.num 1), ("a__c", JVal.num 2)] :=
  flatten_reference [("x", JVal.num 3), ("l", JVal.list [JVal.num 1])]
    (by decide) (by decide)

/-- C1 evaluated at its failing input (code bug): after SCHEMA("s"),
RECORD({"a": "x"}) — which establishes header ["a"] and writes it — the
second RECORD({"b": "y"}) overwrites the cached header with its own key
list ["b"] and its data row is written as ["y"] under that new header,
instead of the established column set ["a"] (which would have rendered the
missing field as the empty cell [""]); the `else` branch of the header
lookup in `persist_messages` reassigns `headers[stream]` on every RECORD
once the file is non-empty. -/
theorem header_not_stable_on_run :
    persistMessages trueValidate "o" "d"
      [Message.schema "s" JVal.null [],
       Message.record "s" [("a", JVal.str "x")],
       Message.record "s" [("b", JVal.str "y")]] [] =
    .ok { state := none,
          schemas := [("s", JVal.null)],
          key_properties := [("s", [])],
          headers := [("s", ["b"])],
          fs := [("o/s--d.csv", [["a"], ["x"], ["y"]])] } := by
  simp [persistMessages, runMessages, processMessage, trueValidate, initState,
    filePath, fileEmpty, updateHeaders, rowFor, cellStr, pyStr, pyRepr,
    flatten, flattenItems, dictOf, setA, lookupA]

/-! ### Row counts over a whole valid run (claim C5) -/

/-- Whether every RECORD of the sequence is preceded by a SCHEMA for its
stream (tracked from the given schema table) and passes validation. -/
def allValidFrom (validate : Validate) :
    List (String × JVal) → List Message → Bool
  | _, [] => true
  | schemas, .record s r :: rest =>
      (match lookupA schemas s with
       | none => false
       | some sch => validate sch r) && allValidFrom validate schemas rest
  | schemas, .schema s sch _ :: rest =>
      allValidFrom validate (setA schemas s sch) rest
  | schemas, .state _ :: rest => allValidFrom validate schemas rest
  | schemas, .unknown :: rest => allValidFrom validate schemas rest

/-- The number of RECORD messages for a stream in a sequence. -/
def recordCount (stream : String) : List Message → Nat
  | [] => 0
  | .record s _ :: rest => (if s = stream then 1 else 0) + recordCount stream rest
  | _ :: rest => recordCount stream rest

lemma length_after_append (fs : FileSys) (fname : String) (hdr row : List String) :
    ((lookupA (setA fs fname
        (((lookupA fs fname).getD [] ++
          (if fileEmpty fs fname then [hdr] else [])) ++ [row])) fname).getD []).length =
      ((lookupA fs fname).getD []).length +
        (if ((lookupA fs fname).getD []).length = 0 then 1 else 0) + 1 := by
  rw [lookupA_setA_self, fileEmpty_iff]
  by_cases h : ((lookupA fs fname).getD []) = []
  · simp [h]
  · have hne : ¬ ((lookupA fs fname).getD []).isEmpty = true := by
      rw [List.isEmpty_iff]
      exact h
    have hlen : ¬ ((lookupA fs fname).getD []).length = 0 := by
      rw [List.length_eq_zero]
      exact h
    simp [hne, hlen]

lemma runMessages_row_count (validate : Validate) (f d : String)
    (msgs : List Message) :
    ∀ (st : PState) (c0 : String → Nat),
      allValidFrom validate st.schemas msgs = true →
      (∀ s, ((lookupA st.fs (filePath f d s)).getD []).length =
        if c0 s = 0 then 0 else c0 s + 1) →
      ∃ st2, runMessages validate f d st msgs = .ok st2 ∧
        ∀ s, ((lookupA st2.fs (filePath f d s)).getD []).length =
          if c0 s + recordCount s msgs = 0 then 0
          else c0 s + recordCount s msgs + 1 := by
  induction msgs with
  | nil =>
      intro st c0 _ hlen
      refine ⟨st, rfl, fun s => ?_⟩
      simpa [recordCount] using hlen s
  | cons m rest ih =>
      intro st c0 hvalid hlen
      cases m with
      | record t r =>
          simp only [allValidFrom, Bool.and_eq_true] at hvalid
          obtain ⟨hhead, hrest⟩ := hvalid
          cases hsch : lookupA st.schemas t with
          | none => rw [hsch] at hhead; cases hhead
          | some sch =>
              rw [hsch] at hhead
              have hinv : ∀ s,
                  ((lookupA (setA st.fs (filePath f d t)
                      (((lookupA st.fs (filePath f d t)).getD [] ++
                        (if fileEmpty st.fs (filePath f d t)
                          then [(lookupA (updateHeaders st.headers st.fs t
                            (filePath f d t) (flatten r "" "__")) t).getD []]
                          else [])) ++
                        [rowFor ((lookupA (updateHeaders st.headers st.fs t
                            (filePath f d t) (flatten r "" "__")) t).getD [])
                          (flatten r "" "__")])) (filePath f d s)).getD []).length =
                    if (if s = t then c0 s + 1 else c0 s) = 0 then 0
                    else (if s = t then c0 s + 1 else c0 s) + 1 := by
                intro s
                by_cases hst : s = t
                · subst hst
                  rw [length_after_append]
                  have hold := hlen s
                  rw [hold]
                  by_cases hc : c0 s = 0
                  · simp [hc]
                  · simp [hc]
                · have hne2 : filePath f d s ≠ filePath f d t := fun hc =>
                    hst (filePath_inj f d s t hc)
                  rw [lookupA_setA_ne st.fs (filePath f d t) (filePath f d s) _ hne2]
                  simp only [if_neg hst]
                  exact hlen s
              obtain ⟨st3, hrun, hlen3⟩ := ih
                { st with
                    headers := updateHeaders st.headers st.fs t (filePath f d t)
                      (flatten r "" "__"),
                    fs := setA st.fs (filePath f d t)
                      (((lookupA st.fs (filePath f d t)).getD [] ++
                        (if fileEmpty st.fs (filePath f d t)
                          then [(lookupA (updateHeaders st.headers st.fs t
                            (filePath f d t) (flatten r "" "__")) t).getD []]
                          else [])) ++
                        [rowFor ((lookupA (updateHeaders st.headers st.fs t
                            (filePath f d t) (flatten r "" "__")) t).getD [])
                          (flatten r "" "__")]),
                    state := none }
                (fun s => if s = t then c0 s + 1 else c0 s)
                hrest hinv
              refine ⟨st3, ?_, ?_⟩
              · simp only [runMessages, processMessage, hsch]
                rw [if_pos hhead]
                exact hrun
              · intro s
                have hl3 := hlen3 s
                by_cases hst : s = t
                · subst hst
                  have hone : recordCount s (Message.record s r :: rest) =
                      1 + recordCount s rest := by
                    simp [recordCount]
                  rw [hone]
                  have htwo : (if s = s then c0 s + 1 else c0 s) = c0 s + 1 := by
                    simp
                  rw [htwo] at hl3
                  have hthree : c0 s + (1 + recordCount s rest) =
                      c0 s + 1 + recordCount s rest := by
                    omega
                  rw [hthree]
                  exact hl3
                · have hts : ¬ t = s := fun hc => hst hc.symm
                  simp only [if_neg hst] at hl3
                  have harith : recordCount s (Message.record t r :: rest) =
                      recordCount s rest := by
                    simp [recordCount, hts]
                  rw [harith]
                  exact hl3
      | state v =>
          simp only [allValidFrom] at hvalid
          obtain ⟨st3, hrun, hlen3⟩ := ih { st with state := some v } c0 hvalid hlen
          refine ⟨st3, ?_, ?_⟩
          · simp only [runMessages, processMessage]
            exact hrun
          · intro s
            simpa [recordCount] using hlen3 s
      | schema t sch kp =>
          simp only [allValidFrom] at hvalid
          obtain ⟨st3, hrun, hlen3⟩ := ih
            { st with schemas := setA st.schemas t sch,
                      key_properties := setA st.key_properties t kp }
            c0 hvalid hlen
          refine ⟨st3, ?_, ?_⟩
          · simp only [runMessages, processMessage]
            exact hrun
          · intro s
            simpa [recordCount] using hlen3 s
      | unknown =>
          simp only [allValidFrom] at hvalid
          obtain ⟨st3, hrun, hlen3⟩ := ih st c0 hvalid hlen
          refine ⟨st3, ?_, ?_⟩
          · simp only [runMessages, processMessage]
            exact hrun
          · intro s
            simpa [recordCount] using hlen3 s

/-- C5.  Row count: over a filesystem holding no output file for the run
date, a run in which every RECORD is preceded by a SCHEMA for its stream
and every record validates completes normally, and each stream's output
file holds exactly one header row plus one data row per RECORD for that
stream (streams with no RECORD get no file). -/
theorem row_count_valid_runs (validate : Validate) (output_folder date : String)
    (msgs : List Message) (fs0 : FileSys)
    (hclean : ∀ stream, lookupA fs0 (filePath output_folder date stream) = none)
    (hvalid : allValidFrom validate [] msgs = true) :
    ∃ st, persistMessages validate output_folder date msgs fs0 = .ok st ∧
      ∀ stream,
        ((lookupA st.fs (filePath output_folder date stream)).getD []).length =
          if recordCount stream msgs = 0 then 0
          else recordCount stream msgs + 1 := by
  obtain ⟨st, hrun, hlen⟩ := runMessages_row_count validate output_folder date msgs
    (initState fs0) (fun _ => 0) (by simpa [initState] using hvalid)
    (fun s => by simp [initState, hclean s])
  exact ⟨st, hrun, fun s => by simpa using hlen s⟩

/-- Witness for C5: SCHEMA("s"), then two RECORDs for "s"; the file for "s"
ends with 3 rows, its header plus two data rows. -/
theorem row_count_valid_runs_witness :
    ∃ st, persistMessages trueValidate "o" "d"
        [Message.schema "s" JVal.null [],
         Message.record "s" [("a", JVal.str "x")],
         Message.record "s" [("a", JVal.str "y")]] [] = .ok st ∧
      ((lookupA st.fs (filePath "o" "d" "s")).getD []).length =
        if recordCount "s"
            [Message.schema "s" JVal.null [],
             Message.record "s" [("a", JVal.str "x")],
             Message.record "s" [("a", JVal.str "y")]] = 0 then 0
        else recordCount "s"
            [Message.schema "s" JVal.null [],
             Message.record "s" [("a", JVal.str "x")],
             Message.record "s" [("a", JVal.str "y")]] + 1 := by
  obtain ⟨st, hrun, hlen⟩ := row_count_valid_runs trueValidate "o" "d"
    [Message.schema "s" JVal.null [],
     Message.record "s" [("a", JVal.str "x")],
     Message.record "s" [("a", JVal.str "y")]] []
    (fun _ => rfl) (by decide)
  exact ⟨st, hrun, hlen "s"⟩

/-! ### key_properties noninterference (claim C10) -/

/-- Erase the key_properties payload of a SCHEMA message; two message
sequences are "identical except for key_properties" when their images under
this map are equal. -/
def eraseKP : Message → Message
  | .schema s sch _ => .schema s sch []
  | m => m

/-- The key_properties-independent part of the state: checkpoint, schema
table, header table and filesystem (so, everything observable in output
files and in the returned checkpoint). -/
def obs (st : PState) :
    Option JVal × List (String × JVal) × List (String × List String) × FileSys :=
  (st.state, st.schemas, st.headers, st.fs)

/-- `obs` through the run's result, keeping the error kind. -/
def obsRes (r : Except (Err × PState) PState) :
    Except
      (Err × Option JVal × List (String × JVal) ×
        List (String × List String) × FileSys)
      (Option JVal × List (String × JVal) ×
        List (String × List String) × FileSys) :=
  match r with
  | .ok st => .ok (obs st)
  | .error (e, st) => .error (e, obs st)

lemma processMessage_obs (validate : Validate) (f d : String)
    (st1 st2 : PState) (m1 m2 : Message)
    (hst : obs st1 = obs st2) (hm : eraseKP m1 = eraseKP m2) :
    obsRes (processMessage validate f d st1 m1) =
      obsRes (processMessage validate f d st2 m2) := by
  simp only [obs, Prod.mk.injEq] at hst
  obtain ⟨h1, h2, h3, h4⟩ := hst
  cases m1 <;> cases m2 <;> simp only [eraseKP] at hm <;>
    try exact Message.noConfusion hm
  case record.record s1 r1 s2 r2 =>
    injection hm with hs hr
    subst hs
    subst hr
    simp only [processMessage, h2, h3, h4]
    cases hl : lookupA st2.schemas s1 with
    | none => simp [obsRes, obs, h1, h2, h3, h4]
    | some sch =>
        by_cases hv : validate sch r1 = true
        · simp [hv, obsRes, obs, h1, h2, h3, h4]
        · simp [hv, obsRes, obs, h1, h2, h3, h4]
  case state.state v1 v2 =>
    injection hm with hv
    subst hv
    simp [processMessage, obsRes, obs, h1, h2, h3, h4]
  case schema.schema s1 sch1 kp1 s2 sch2 kp2 =>
    injection hm with hs hsch _
    subst hs
    subst hsch
    simp [processMessage, obsRes, obs, h1, h2, h3, h4]
  case unknown.unknown =>
    simp [processMessage, obsRes, obs, h1, h2, h3, h4]

lemma runMessages_obs (validate : Validate) (f d : String) :
    ∀ (msgs1 msgs2 : List Message) (st1 st2 : PState),
      msgs1.map eraseKP = msgs2.map eraseKP →
      obs st1 = obs st2 →
      obsRes (runMessages validate f d st1 msgs1) =
        obsRes (runMessages validate f d st2 msgs2) := by
  intro msgs1
  induction msgs1 with
  | nil =>
      intro msgs2 st1 st2 hm hst
      cases msgs2 with
      | nil => simpa [runMessages, obsRes] using hst
      | cons _ _ => simp at hm
  | cons m1 rest1 ih =>
      intro msgs2 st1 st2 hm hst
      cases msgs2 with
      | nil => simp at hm
      | cons m2 rest2 =>
          simp only [List.map_cons, List.cons.injEq] at hm
          obtain ⟨hm1, hrest⟩ := hm
          have hstep := processMessage_obs validate f d st1 st2 m1 m2 hst hm1
          simp only [runMessages]
          cases hp1 : processMessage validate f d st1 m1 with
          | ok st3 =>
              cases hp2 : processMessage validate f d st2 m2 with
              | ok st4 =>
                  rw [hp1, hp2] at hstep
                  simp only [obsRes] at hstep
                  apply ih rest2 st3 st4 hrest
                  injection hstep
              | error e2 =>
                  obtain ⟨err2, ste2⟩ := e2
                  rw [hp1, hp2] at hstep
                  simp [obsRes] at hstep
          | error e1 =>
              obtain ⟨err1, ste1⟩ := e1
              cases hp2 : processMessage validate f d st2 m2 with
              | ok st4 =>
                  rw [hp1, hp2] at hstep
                  simp [obsRes] at hstep
              | error e2 =>
                  obtain ⟨err2, ste2⟩ := e2
                  rw [hp1, hp2] at hstep
                  exact hstep

/-- C10.  key_properties noninterference: two runs over message sequences
that agree except for the key_properties payloads of their SCHEMA messages
produce the same observable outcome — same success/error status and error
kind, same filesystem (output file contents), same returned checkpoint,
same schema and header tables. -/
theorem key_properties_noninterference (validate : Validate)
    (output_folder date : String) (fs0 : FileSys) (msgs1 msgs2 : List Message)
    (h : msgs1.map eraseKP = msgs2.map eraseKP) :
    obsRes (persistMessages validate output_folder date msgs1 fs0) =
      obsRes (persistMessages validate output_folder date msgs2 fs0) :=
  runMessages_obs validate output_folder date msgs1 msgs2
    (initState fs0) (initState fs0) h rfl

/-- Witness for C10: the same run with key_properties ["k1"] versus ["k2"]
has identical observable outcome. -/
theorem key_properties_noninterference_witness :
    obsRes (persistMessages trueValidate "o" "d"
        [Message.schema "s" JVal.null ["k1"],
         Message.record "s" [("a", JVal.str "x")]] []) =
      obsRes (persistMessages trueValidate "o" "d"
        [Message.schema "s" JVal.null ["k2"],
         Message.record "s" [("a", JVal.str "x")]] []) :=
  key_properties_noninterference trueValidate "o" "d" []
    [Message.schema "s" JVal.null ["k1"],
     Message.record "s" [("a", JVal.str "x")]]
    [Message.schema "s" JVal.null ["k2"],
     Message.record "s" [("a", JVal.str "x")]]
    rfl
